import Mathlib

/-!
Verification of `URN_SpotDL.py` (SpotDL GUI wrapper).

This file shallowly embeds the credential-file loader
(`_load_spotify_env_from_file`, `_strip_quotes`), the child-environment
builder, the codec-directory resolver (`_ffmpeg_dir`), the cancel handler
(`App._cancel` / `App._done`) and the background worker (`App._worker`)
as pure Lean functions, and proves the specification claims about them.

Strings are modelled as `List Char`; the Python `dict` is modelled as an
association list where assignment conses a shadowing entry at the front
(lookup takes the most recent entry, which is observationally equivalent
to Python dict assignment for every lookup the program performs).
-/

set_option autoImplicit false

namespace URNSpotDL

/-- Environment / credential dictionaries: keys and values are strings. -/
abbrev EnvDict := List (List Char × List Char)

/-- Python `d[k] = v`: the new binding shadows any older one. -/
def dictSet (d : EnvDict) (k v : List Char) : EnvDict := (k, v) :: d

/-- Python `d.get(k)` / `k in d`: first (most recent) binding wins. -/
def dictGet? (d : EnvDict) (k : List Char) : Option (List Char) :=
  (d.find? (fun p => decide (p.1 = k))).map (fun p => p.2)

/-- Python `s.strip()`: drop whitespace from both ends. -/
def pyStrip (s : List Char) : List Char :=
  ((s.dropWhile Char.isWhitespace).reverse.dropWhile Char.isWhitespace).reverse

/-- Is `c` one of the two quote characters `'` and `"`? (`s[0] in ("'", '"')`). -/
def isQuote (c : Char) : Bool := c == '\'' || c == '"'

/-- Does the (possibly empty) string start with a quote character? -/
def headIsQuote (t : List Char) : Bool :=
  match t.head? with
  | some c => isQuote c
  | none => false

/-- Function `_strip_quotes`: strip whitespace; if the result has length ≥ 2 and its
first and last characters are the same quote character, drop them. -/
def stripQuotes (s0 : List Char) : List Char :=
  if 2 ≤ (pyStrip s0).length ∧ (pyStrip s0).head? = (pyStrip s0).getLast? ∧
      headIsQuote (pyStrip s0) = true then
    ((pyStrip s0).drop 1).dropLast
  else pyStrip s0

/-- Python `line.split('=', 1)`: split at the first `'='`.
Only used on lines that contain `'='`; on a line without one it returns
the whole line as the key and an empty value. -/
def splitOnceEq : List Char → List Char × List Char
  | [] => ([], [])
  | c :: rest =>
    if c = '=' then ([], rest)
    else
      let r := splitOnceEq rest
      (c :: r.1, r.2)

/-- One iteration of the parse loop of `_load_spotify_env_from_file`:
strip the raw line; skip it when it is empty, starts with `'#'`, or has no
`'='`; otherwise split at the first `'='`, strip quotes from both sides and
assign into the dictionary. -/
def procLine (d : EnvDict) (raw : List Char) : EnvDict :=
  if pyStrip raw = [] ∨ (pyStrip raw).head? = some '#' ∨ '=' ∉ pyStrip raw then d
  else
    dictSet d (stripQuotes (splitOnceEq (pyStrip raw)).1)
      (stripQuotes (splitOnceEq (pyStrip raw)).2)

/-- The key that a raw line would assign, `none` when the line is skipped. -/
def lineKey? (raw : List Char) : Option (List Char) :=
  if pyStrip raw = [] ∨ (pyStrip raw).head? = some '#' ∨ '=' ∉ pyStrip raw then none
  else some (stripQuotes (splitOnceEq (pyStrip raw)).1)

/-- The value that a (non-skipped) raw line assigns. -/
def lineVal (raw : List Char) : List Char :=
  stripQuotes (splitOnceEq (pyStrip raw)).2

/-- Fold the parse loop over the lines of one file, on top of dictionary `d`.
(`out` in the source is created once, before the loop over candidates.) -/
def parseInto (d : EnvDict) (lines : List (List Char)) : EnvDict :=
  lines.foldl procLine d

/-- What reading one candidate file can do, as observed by the loop body:
the file may not exist (`exists()` false, or raise before any line), it may
be read completely, or reading may raise after yielding a prefix of its
lines (e.g. a decode error mid-file); the surrounding `try/except` then
swallows the exception after the already-yielded lines were parsed. -/
inductive FileOutcome where
  | absent
  | readable (lines : List (List Char))
  | errAfter (lines : List (List Char))
deriving DecidableEq

/-- The two candidate paths `APP_DIR/'spotdl.env'` and `APP_DIR/'.env'`. -/
inductive EnvPath where
  | spotdlEnv
  | dotEnv
deriving DecidableEq

/-- The candidate loop of `_load_spotify_env_from_file`: a fully readable
file is parsed, recorded as `used` and the loop breaks; an absent file is
skipped; a file raising mid-read has its yielded prefix parsed into the
same dictionary, `used` is not assigned (the assignment follows the `with`
block), and the loop continues. -/
def loadCandidates : List (EnvPath × FileOutcome) → EnvDict → Option EnvPath →
    EnvDict × Option EnvPath
  | [], out, used => (out, used)
  | (p, fo) :: rest, out, used =>
    match fo with
    | .absent => loadCandidates rest out used
    | .readable ls => (parseInto out ls, some p)
    | .errAfter ls => loadCandidates rest (parseInto out ls) used

/-- Function `_load_spotify_env_from_file`, given the observable outcomes of the two
candidate files. -/
def loadSpotifyEnv (fo1 fo2 : FileOutcome) : EnvDict × Option EnvPath :=
  loadCandidates [(.spotdlEnv, fo1), (.dotEnv, fo2)] [] none

/-! ### Child environment construction (`App._worker`, lines 279–286) -/

/-- Python `os.pathsep.join(...)` on an already-filtered list of parts. -/
def joinSep (sep : List Char) : List (List Char) → List Char
  | [] => []
  | [x] => x
  | x :: y :: xs => x ++ sep ++ joinSep sep (y :: xs)

/-- Python `os.pathsep.join(filter(None, parts))`: empty parts are dropped by
`filter(None, ...)` before joining. -/
def pathSepJoin (sep : List Char) (parts : List (List Char)) : List Char :=
  joinSep sep (parts.filter (fun s => !s.isEmpty))

/-- The search-path variable name. -/
def pathKey : List Char := "PATH".toList

/-- The three recognized credential keys, in the order the source iterates. -/
def credKeys : List (List Char) :=
  ["SPOTIPY_CLIENT_ID".toList, "SPOTIPY_CLIENT_SECRET".toList,
   "SPOTIPY_REDIRECT_URI".toList]

/-- The loop `for k in (...): if k in spot_env: env[k] = spot_env[k]`. -/
def applyCreds (spotEnv : EnvDict) (e : EnvDict) (ks : List (List Char)) : EnvDict :=
  ks.foldl
    (fun e k =>
      match dictGet? spotEnv k with
      | some v => dictSet e k v
      | none => e)
    e

/-- The environment handed to `Popen`: a copy of the ambient environment
with `PATH` reassigned to the pathsep-join of the non-empty entries among
the ffmpeg directory, the tool directory (`str(exe.parent)`) and the
ambient `PATH` (`env.get('PATH', '')`), then each recognized credential key
present in the resolved mapping forced in. -/
def buildChildEnv (sep : List Char) (ambient : EnvDict)
    (ffmpegDir exeParent : List Char) (spotEnv : EnvDict) : EnvDict :=
  applyCreds spotEnv
    (dictSet ambient pathKey
      (pathSepJoin sep [ffmpegDir, exeParent, (dictGet? ambient pathKey).getD []]))
    credKeys

/-- Formalisation of the words of the specification (§8): the child `PATH`
is the codec directory, then the tool directory, then the ambient value,
joined in that order. Stated for comparison against `buildChildEnv`. -/
def specSearchPath (sep c t ambientPath : List Char) : List Char :=
  c ++ sep ++ t ++ sep ++ ambientPath

/-! ### Codec directory resolver (`App._ffmpeg_dir`) -/

/-- Function `_ffmpeg_dir`: the stripped stdout of the probe child on success, the
empty string when the probe raises (`except` branch logs and returns `''`). -/
def ffmpegDirResolve (probe : Option (List Char)) : List Char :=
  match probe with
  | some out => pyStrip out
  | none => []

/-! ### UI state, `App._done` and `App._cancel` -/

/-- The pieces of UI state the claims talk about: the indeterminate
progress bar, the Run and Cancel buttons, and the status label text. -/
structure UIState where
  progressRunning : Bool
  runEnabled : Bool
  cancelEnabled : Bool
  statusText : List Char
deriving DecidableEq

/-- Method `App._done(error)`: stop the progress bar, disable Cancel, enable Run,
set the status text to `Idle` or `Error`. -/
def appDone (error : Bool) : UIState :=
  { progressRunning := false
  , runEnabled := true
  , cancelEnabled := false
  , statusText := if error then "Error".toList else "Idle".toList }

/-- The UI state `App._run` establishes just before the worker starts:
progress bar started, Run disabled, Cancel enabled. -/
def runStartUI : UIState :=
  { progressRunning := true
  , runEnabled := false
  , cancelEnabled := true
  , statusText := "Setting up...".toList }

/-- Observable inputs of `App._cancel`: whether `self.proc` is set with a
`poll` attribute, whether `poll()` reports the child still running, and
whether `terminate()` raises. -/
structure CancelInput where
  procExists : Bool
  procRunning : Bool
  terminateRaises : Bool
deriving DecidableEq

/-- Observable effects of `App._cancel`. -/
structure CancelResult where
  flagSet : Bool
  terminateAttempted : Bool
  raisedToCaller : Bool
  ui : UIState
deriving DecidableEq

/-- Method `App._cancel`: set the stop flag; inside `try/except` call
`self.proc.terminate()` when the process object exists and is still
running (any exception is swallowed by the bare `except`); finally call
`self._done(error=True)`. -/
def appCancel (ci : CancelInput) : CancelResult :=
  { flagSet := true
  , terminateAttempted := ci.procExists && ci.procRunning
  , raisedToCaller := false
  , ui := appDone true }

/-! ### The worker (`App._worker`) -/

/-- Is the cooperative stop flag observed set at line-check number `i`?
`stopDuring = some j` means the flag becomes (and, the flag being a
`threading.Event` that is only cleared before the worker starts, stays)
set from line-check `j` on; `none` means it is never set during the loop. -/
def flagSetAt (stopDuring : Option Nat) (i : Nat) : Bool :=
  match stopDuring with
  | some j => decide (j ≤ i)
  | none => false

/-- The streaming loop `for line in self.proc.stdout`: break on an empty
line before queueing; otherwise queue the (right-stripped) line and break
when the stop flag is set. Returns the queued lines and whether the loop
exited through the stop-flag check. -/
def pumpLines (stopDuring : Option Nat) : List (List Char) → Nat →
    List (List Char) × Bool
  | [], _ => ([], false)
  | l :: rest, i =>
    if l.isEmpty then ([], false)
    else if flagSetAt stopDuring i then ([l], true)
    else
      let r := pumpLines stopDuring rest (i + 1)
      (l :: r.1, r.2)

/-- Python `lines[-50:]`. -/
def lastN (n : Nat) (ls : List (List Char)) : List (List Char) :=
  ls.drop (ls.length - n)

/-- The diagnostic tail the failure branch reads back from the transcript
file `last_run.log`: the last 50 lines, or nothing when the read raises
(`tail` stays `''`). -/
def failTail (transcript : Option (List (List Char))) : List (List Char) :=
  match transcript with
  | none => []
  | some ls => lastN 50 ls

/-- The tail surfaced on failure comes from the captured transcript. -/
def tailWithin (transcript : Option (List (List Char))) : Prop :=
  match transcript with
  | none => True
  | some ls => failTail (some ls) <:+ ls

/-- Terminal outcome of one worker run. -/
inductive Outcome where
  | errored
  | ffmpegMissing
  | cancelled
  | done
  | failed (tail : List (List Char))
deriving DecidableEq

/-- The observable inputs of one `App._worker` run. -/
structure WorkerInput where
  /-- Whether `_ensure_env()` completes without raising. -/
  ensureEnvOk : Bool
  /-- stdout of the ffmpeg probe, `none` when `check_output` raises. -/
  probe : Option (List Char)
  /-- Value of `Path(ffmpeg_dir).exists()` for the resolved directory. -/
  ffmpegDirExists : Bool
  /-- Value of `str(exe.parent)`, the venv script directory put on `PATH`. -/
  exeParent : List Char
  /-- Value of `os.pathsep`. -/
  sep : List Char
  /-- Value of `os.environ.copy()`. -/
  ambient : EnvDict
  /-- outcome of reading `spotdl.env`. -/
  fo1 : FileOutcome
  /-- outcome of reading `.env`. -/
  fo2 : FileOutcome
  /-- Whether `subprocess.Popen` raises. -/
  spawnRaises : Bool
  /-- Whether `self.proc.stdout` is not `None`. -/
  stdoutPresent : Bool
  /-- the lines the child writes before its stream closes. -/
  childLines : List (List Char)
  /-- first line-check at which the stop flag reads set, if any. -/
  stopDuring : Option Nat
  /-- the stop flag reads set at the check after `proc.wait()`. -/
  stopFinal : Bool
  /-- the child's exit code. -/
  rc : Int
  /-- The `last_run.log` content when the failure branch reads it
  (`none` when that read raises). -/
  transcript : Option (List (List Char))

/-- The observable effects of one `App._worker` run. -/
structure WorkerResult where
  outcome : Outcome
  /-- execution reached the `subprocess.Popen` call. -/
  popenCalled : Bool
  /-- the environment handed to `Popen`, when it was called. -/
  env : Option EnvDict
  /-- lines put on the UI queue. -/
  queued : List (List Char)
  /-- the UI state after the worker returns. -/
  ui : UIState
deriving DecidableEq

/-- Method `App._worker`: prepare the venv, resolve and check the ffmpeg
directory, build the child environment, spawn, pump lines, interpret the
exit. Every branch but one ends in `self._done(error=True)`; the
`rc == 0` branch only sets the status text to `Done` and returns without
calling `_done`, so the progress bar keeps running and the buttons keep
their in-run states. An exception anywhere is caught by the outer
`except`, which calls `_done(error=True)`. -/
def runWorker (w : WorkerInput) : WorkerResult :=
  if w.ensureEnvOk = false then
    { outcome := .errored, popenCalled := false, env := none, queued := []
    , ui := appDone true }
  else
    let ffdir := ffmpegDirResolve w.probe
    if ffdir.isEmpty || !w.ffmpegDirExists then
      { outcome := .ffmpegMissing, popenCalled := false, env := none, queued := []
      , ui := appDone true }
    else
      let env := buildChildEnv w.sep w.ambient ffdir w.exeParent
        (loadSpotifyEnv w.fo1 w.fo2).1
      if w.spawnRaises then
        { outcome := .errored, popenCalled := true, env := some env, queued := []
        , ui := appDone true }
      else if !w.stdoutPresent then
        { outcome := .errored, popenCalled := true, env := some env, queued := []
        , ui := appDone true }
      else
        let r := pumpLines w.stopDuring w.childLines 0
        if r.2 || w.stopFinal then
          { outcome := .cancelled, popenCalled := true, env := some env
          , queued := r.1, ui := appDone true }
        else if w.rc = 0 then
          { outcome := .done, popenCalled := true, env := some env
          , queued := r.1
          , ui := { runStartUI with statusText := "Done".toList } }
        else
          { outcome := .failed (failTail w.transcript), popenCalled := true
          , env := some env, queued := r.1, ui := appDone true }

/-! ### Dictionary and parser lemmas -/

theorem dictGet_set_self (d : EnvDict) (k v : List Char) :
    dictGet? (dictSet d k v) k = some v := by
  simp [dictGet?, dictSet, List.find?]

theorem dictGet_set_other (d : EnvDict) (k v k' : List Char) (h : k ≠ k') :
    dictGet? (dictSet d k v) k' = dictGet? d k' := by
  simp [dictGet?, dictSet, List.find?, h]

theorem parseInto_nil (d : EnvDict) : parseInto d [] = d := rfl

theorem parseInto_cons (d : EnvDict) (x : List Char) (xs : List (List Char)) :
    parseInto d (x :: xs) = parseInto (procLine d x) xs := rfl

theorem parseInto_append (d : EnvDict) (xs ys : List (List Char)) :
    parseInto d (xs ++ ys) = parseInto (parseInto d xs) ys :=
  List.foldl_append _ _ _ _

theorem procLine_skip (d : EnvDict) (raw : List Char) (h : lineKey? raw = none) :
    procLine d raw = d := by
  unfold lineKey? at h
  unfold procLine
  split at h
  · rw [if_pos ‹_›]
  · exact absurd h (by simp)

theorem procLine_assign (d : EnvDict) (raw k : List Char) (h : lineKey? raw = some k) :
    procLine d raw = dictSet d k (lineVal raw) := by
  unfold lineKey? at h
  unfold procLine lineVal
  split at h
  · exact absurd h (by simp)
  · rw [if_neg ‹_›]
    obtain rfl : stripQuotes (splitOnceEq (pyStrip raw)).1 = k := by
      simpa using h
    rfl

theorem dictGet_parseInto_of_no_key (d : EnvDict) (S : List (List Char)) (k : List Char)
    (h : ∀ l ∈ S, lineKey? l ≠ some k) :
    dictGet? (parseInto d S) k = dictGet? d k := by
  induction S generalizing d with
  | nil => rfl
  | cons l S ih =>
    rw [parseInto_cons]
    rcases hl : lineKey? l with _ | k'
    · rw [procLine_skip d l hl]
      exact ih _ (fun x hx => h x (List.mem_cons_of_mem _ hx))
    · have hk' : k' ≠ k := by
        intro e
        exact h l (List.mem_cons_self _ _) (by rw [hl, e])
      rw [procLine_assign d l k' hl, ih _ (fun x hx => h x (List.mem_cons_of_mem _ hx)),
        dictGet_set_other _ _ _ _ hk']

theorem pyStrip_sandwich (a b : Char) (mid : List Char)
    (ha : a.isWhitespace = false) (hb : b.isWhitespace = false) :
    pyStrip (a :: mid ++ [b]) = a :: mid ++ [b] := by
  unfold pyStrip
  have h1 : (a :: mid ++ [b]).dropWhile Char.isWhitespace = a :: mid ++ [b] := by
    simp [List.dropWhile_cons, ha]
  rw [h1]
  have h2 : (a :: mid ++ [b]).reverse = b :: (mid.reverse ++ [a]) := by
    simp
  rw [h2]
  have h3 : (b :: (mid.reverse ++ [a])).dropWhile Char.isWhitespace
      = b :: (mid.reverse ++ [a]) := by
    simp [List.dropWhile_cons, hb]
  rw [h3, ← h2, List.reverse_reverse]

/-- Claim C7 (confirmed): a line whose stripped form contains no `'='`
separator is skipped without raising, and parsing continues with the
subsequent lines of the same file. -/
theorem malformed_line_skipped (d : EnvDict) (raw : List Char)
    (rest : List (List Char)) (h : '=' ∉ pyStrip raw) :
    parseInto d (raw :: rest) = parseInto d rest := by
  rw [parseInto_cons]
  unfold procLine
  rw [if_pos (Or.inr (Or.inr h))]

/-- Witness for C7: a concrete file whose first line has no `'='` parses
exactly as the file without that line. -/
theorem malformed_line_skipped_witness :
    parseInto [] ["no separator here".toList, "A=1".toList]
      = parseInto [] ["A=1".toList] :=
  malformed_line_skipped [] "no separator here".toList ["A=1".toList] (by decide)

theorem isQuote_not_whitespace (q : Char) (h : isQuote q = true) :
    q.isWhitespace = false := by
  unfold isQuote at h
  rcases Bool.or_eq_true_iff.1 h with h' | h' <;>
    · rw [(by exact beq_iff_eq.1 h' : q = _)]
      decide

/-- Claim C9 (confirmed): a value (or key) surrounded by a matching pair of
quote characters resolves without the surrounding quotes; in particular a
file line `KEY="abc"` resolves key `KEY` to `abc`. -/
theorem quotes_stripped (q : Char) (s : List Char) (h : isQuote q = true) :
    stripQuotes (q :: s ++ [q]) = s ∧
    dictGet? (parseInto [] [("KEY=".toList ++ (q :: s ++ [q]))]) "KEY".toList
      = some s := by
  have hqw : q.isWhitespace = false := isQuote_not_whitespace q h
  have hstrip : stripQuotes (q :: s ++ [q]) = s := by
    unfold stripQuotes
    rw [pyStrip_sandwich q q s hqw hqw]
    rw [if_pos]
    · show ((q :: (s ++ [q])).drop 1).dropLast = s
      rw [List.drop_one, List.tail_cons]
      simp
    · have hh : ((q :: s) ++ [q]).head? = some q := by
        rw [List.cons_append, List.head?_cons]
      have hl : ((q :: s) ++ [q]).getLast? = some q := List.getLast?_concat _
      refine ⟨by simp, ?_, ?_⟩
      · show ((q :: s) ++ [q]).head? = ((q :: s) ++ [q]).getLast?
        rw [hh, hl]
      · show headIsQuote ((q :: s) ++ [q]) = true
        rw [headIsQuote, hh]
        exact h
  refine ⟨hstrip, ?_⟩
  have hline : "KEY=".toList ++ (q :: s ++ [q])
      = ('K' :: (['E', 'Y', '='] ++ (q :: s))) ++ [q] := by
    simp
  have hpy : pyStrip ("KEY=".toList ++ (q :: s ++ [q]))
      = "KEY=".toList ++ (q :: s ++ [q]) := by
    rw [hline, pyStrip_sandwich 'K' q (['E', 'Y', '='] ++ (q :: s)) (by decide) hqw]
  have hsplit : splitOnceEq ("KEY=".toList ++ (q :: s ++ [q]))
      = ("KEY".toList, q :: s ++ [q]) := by
    show splitOnceEq ('K' :: 'E' :: 'Y' :: '=' :: (q :: s ++ [q])) = _
    simp [splitOnceEq]
  rw [show parseInto [] [("KEY=".toList ++ (q :: s ++ [q]))]
      = procLine [] ("KEY=".toList ++ (q :: s ++ [q])) from rfl]
  unfold procLine
  rw [if_neg, hpy, hsplit]
  · have hk : stripQuotes "KEY".toList = "KEY".toList := by decide
    rw [hk]
    show dictGet? (dictSet [] "KEY".toList (stripQuotes (q :: s ++ [q])))
      "KEY".toList = some s
    rw [hstrip, dictGet_set_self]
  · rw [hpy]
    push_neg
    refine ⟨by simp, ?_, ?_⟩
    · rw [hline, List.cons_append, List.head?_cons]
      decide
    · rw [hline]
      simp

/-- Witness for C9 at `q := '"'`, `s := abc`. -/
theorem quotes_stripped_witness :
    stripQuotes ('"' :: "abc".toList ++ ['"']) = "abc".toList ∧
    dictGet? (parseInto [] [("KEY=".toList ++ ('"' :: "abc".toList ++ ['"']))])
      "KEY".toList = some "abc".toList :=
  quotes_stripped '"' "abc".toList (by decide)

/-- Claim C10 (confirmed): within one file, the mapping holds the value of
the last well-formed line assigning a key — any earlier lines `P`
(including earlier assignments of the same key) are overwritten, and
subsequent lines `S` assigning other keys (or skipped) leave it intact. -/
theorem duplicate_key_last_wins (P S : List (List Char)) (raw k : List Char)
    (h1 : lineKey? raw = some k) (h2 : ∀ l ∈ S, lineKey? l ≠ some k) :
    dictGet? (parseInto [] (P ++ raw :: S)) k = some (lineVal raw) := by
  rw [parseInto_append, parseInto_cons, procLine_assign _ raw k h1,
    dictGet_parseInto_of_no_key _ S k h2, dictGet_set_self]

/-- Witness for C10: in a file `A=1`, `A=2`, `B=3` the key `A` resolves to
the value of its last line. -/
theorem duplicate_key_last_wins_witness :
    dictGet? (parseInto [] (["A=1".toList] ++ "A=2".toList :: ["B=3".toList]))
      "A".toList = some "2".toList := by
  have h := duplicate_key_last_wins ["A=1".toList] ["B=3".toList]
    "A=2".toList "A".toList (by decide) (by decide)
  simpa using h

/-- Claim C1 (corrected), counterexample: `spotdl.env` exists but raises
after yielding the line `X=1`; `.env` exists and reads as `B=2`. The
returned path is `.env` — the first candidate that exists and is fully
readable — yet the mapping still contains `X ↦ 1`, an entry sourced from
`spotdl.env`, which a parse of `.env` alone does not produce. -/
theorem first_file_wins_counterexample :
    (loadSpotifyEnv (.errAfter ["X=1".toList]) (.readable ["B=2".toList])).2
      = some .dotEnv ∧
    dictGet? (loadSpotifyEnv (.errAfter ["X=1".toList])
      (.readable ["B=2".toList])).1 "X".toList = some "1".toList ∧
    dictGet? (parseInto [] ["B=2".toList]) "X".toList = none := by
  decide

/-- Claim C1 (corrected, amended): when the first candidate is fully
readable, the mapping comes from it alone — independent of the second
candidate — and the path identifies it; when the first candidate is
absent, the second readable candidate supplies everything; when neither
yields a file the mapping is empty with no path. However, a candidate
that raises mid-read keeps the entries parsed before the failure and a
later candidate parses on top of them (path identifying the later one, or
none). -/
theorem first_readable_file_wins (ls1 p1 ls2 : List (List Char))
    (fo2 : FileOutcome) :
    loadSpotifyEnv (.readable ls1) fo2 = (parseInto [] ls1, some .spotdlEnv) ∧
    loadSpotifyEnv .absent (.readable ls2) = (parseInto [] ls2, some .dotEnv) ∧
    loadSpotifyEnv .absent .absent = ([], none) ∧
    loadSpotifyEnv (.errAfter p1) .absent = (parseInto [] p1, none) ∧
    loadSpotifyEnv (.errAfter p1) (.readable ls2)
      = (parseInto (parseInto [] p1) ls2, some .dotEnv) :=
  ⟨rfl, rfl, rfl, rfl, rfl⟩

/-! ### Environment-builder lemmas and claims C4, C5 -/

theorem applyCreds_cons (spot e : EnvDict) (k' : List Char) (ks : List (List Char)) :
    applyCreds spot e (k' :: ks)
      = applyCreds spot
          (match dictGet? spot k' with
           | some v => dictSet e k' v
           | none => e) ks := rfl

theorem applyCreds_get (spot : EnvDict) (ks : List (List Char)) (e : EnvDict)
    (k : List Char) :
    dictGet? (applyCreds spot e ks) k
      = if k ∈ ks ∧ (dictGet? spot k).isSome then dictGet? spot k
        else dictGet? e k := by
  induction ks generalizing e with
  | nil => simp [applyCreds]
  | cons k' ks ih =>
    rw [applyCreds_cons, ih]
    by_cases hk : k = k'
    · subst hk
      cases hv : dictGet? spot k with
      | some v =>
        by_cases hm : k ∈ ks <;>
          simp [hv, hm, dictGet_set_self]
      | none => simp [hv]
    · cases hv : dictGet? spot k' with
      | some v =>
        simp [hv, dictGet_set_other _ _ _ _ (Ne.symm hk), List.mem_cons, hk]
      | none => simp [hv, List.mem_cons, hk]

theorem pathKey_not_cred : pathKey ∉ credKeys := by decide

theorem pathSepJoin_three (sep a b c : List Char)
    (ha : a ≠ []) (hb : b ≠ []) (hc : c ≠ []) :
    pathSepJoin sep [a, b, c] = specSearchPath sep a b c := by
  obtain ⟨a0, as, rfl⟩ := List.exists_cons_of_ne_nil ha
  obtain ⟨b0, bs, rfl⟩ := List.exists_cons_of_ne_nil hb
  obtain ⟨c0, cs, rfl⟩ := List.exists_cons_of_ne_nil hc
  simp [pathSepJoin, joinSep, List.filter, specSearchPath, List.append_assoc]

/-- Claim C4 (corrected), counterexample: the claim says every entry other
than the recognized credential keys is the ambient copy, but the built
child environment rewrites the `PATH` entry even with no credentials
resolved. -/
theorem env_override_counterexample :
    dictGet? (buildChildEnv ":".toList [(pathKey, "/x".toList)] "/c".toList
        "/t".toList []) pathKey
      ≠ dictGet? [(pathKey, "/x".toList)] pathKey := by
  decide

/-- Claim C4 (corrected, amended): every recognized credential key present
in the resolved mapping is forced into the child environment, overwriting
the ambient value; a recognized key absent from the mapping keeps its
ambient value; every key other than the recognized keys *and the
search-path variable* is the ambient copy. -/
theorem env_override_amended (sep c t : List Char) (amb spot : EnvDict)
    (k : List Char) :
    (k ∈ credKeys → ∀ v, dictGet? spot k = some v →
      dictGet? (buildChildEnv sep amb c t spot) k = some v) ∧
    (k ∈ credKeys → dictGet? spot k = none →
      dictGet? (buildChildEnv sep amb c t spot) k = dictGet? amb k) ∧
    (k ∉ credKeys → k ≠ pathKey →
      dictGet? (buildChildEnv sep amb c t spot) k = dictGet? amb k) := by
  unfold buildChildEnv
  refine ⟨?_, ?_, ?_⟩
  · intro hm v hv
    rw [applyCreds_get, if_pos ⟨hm, by rw [hv]; rfl⟩, hv]
  · intro hm hv
    rw [applyCreds_get, if_neg (by simp [hv])]
    have hkp : k ≠ pathKey := fun e => pathKey_not_cred (e ▸ hm)
    exact dictGet_set_other _ _ _ _ (Ne.symm hkp)
  · intro hm hkp
    rw [applyCreds_get, if_neg (fun h12 => hm h12.1)]
    exact dictGet_set_other _ _ _ _ (Ne.symm hkp)

/-- Witness for C4 (amended): a resolved client id overwrites the ambient
one in the child environment. -/
theorem env_override_amended_witness :
    dictGet? (buildChildEnv ":".toList
        [(pathKey, "/x".toList), ("SPOTIPY_CLIENT_ID".toList, "old".toList)]
        "/c".toList "/t".toList
        [("SPOTIPY_CLIENT_ID".toList, "new".toList)])
      "SPOTIPY_CLIENT_ID".toList = some "new".toList :=
  (env_override_amended ":".toList "/c".toList "/t".toList
    [(pathKey, "/x".toList), ("SPOTIPY_CLIENT_ID".toList, "old".toList)]
    [("SPOTIPY_CLIENT_ID".toList, "new".toList)]
    "SPOTIPY_CLIENT_ID".toList).1 (by decide) "new".toList (by decide)

/-- Claim C5 (corrected), counterexample: with an empty ambient `PATH`,
`filter(None, ...)` drops the ambient component, so the built value is
`/c:/t` rather than the plain in-order join `/c:/t:` the claim prescribes
for *any* ambient value. -/
theorem search_path_counterexample :
    dictGet? (buildChildEnv ":".toList [(pathKey, [])] "/c".toList "/t".toList [])
        pathKey
      ≠ some (specSearchPath ":".toList "/c".toList "/t".toList []) := by
  decide

/-- Claim C5 (corrected, amended): whenever the codec directory, the tool
directory and the ambient search-path value are all non-empty, the child
`PATH` is exactly codec dir, then tool dir, then ambient value, joined
with the path separator in that order (empty components would be dropped
from the join). -/
theorem search_path_amended (sep c t x : List Char) (amb spot : EnvDict)
    (hc : c ≠ []) (ht : t ≠ []) (hx : x ≠ [])
    (hamb : dictGet? amb pathKey = some x) :
    dictGet? (buildChildEnv sep amb c t spot) pathKey
      = some (specSearchPath sep c t x) := by
  unfold buildChildEnv
  rw [applyCreds_get, if_neg (fun h12 => pathKey_not_cred h12.1),
    dictGet_set_self, hamb, Option.getD_some, pathSepJoin_three sep c t x hc ht hx]

/-- Witness for C5 (amended): ambient `PATH=/x`, codec `/c`, tool `/t`
gives `/c:/t:/x`. -/
theorem search_path_amended_witness :
    dictGet? (buildChildEnv ":".toList [(pathKey, "/x".toList)] "/c".toList
        "/t".toList []) pathKey
      = some (specSearchPath ":".toList "/c".toList "/t".toList "/x".toList) :=
  search_path_amended ":".toList "/c".toList "/t".toList "/x".toList
    [(pathKey, "/x".toList)] [] (by decide) (by decide) (by decide) (by decide)

/-! ### Worker lemmas and claims C2, C3, C6, C8 -/

theorem pumpLines_no_stop (ls : List (List Char)) (i : Nat) :
    (pumpLines none ls i).2 = false := by
  induction ls generalizing i with
  | nil => rfl
  | cons l rest ih =>
    unfold pumpLines
    by_cases hl : l.isEmpty
    · simp [hl]
    · simp [hl, flagSetAt, ih]

/-- Claim C3 (confirmed): when the stop flag is set before the output
stream closes it is still set at the post-`wait` check (the `Event` is
monotone during a run), so the worker takes the `Cancelled` branch — for
every exit code `w.rc`, including non-zero ones — and never the `Failed`
branch; and `_cancel` attempts `terminate()` exactly when a live process
object exists, with any exception it raises swallowed. -/
theorem cancel_wins_over_exit_code (w : WorkerInput) (ci : CancelInput)
    (h1 : w.ensureEnvOk = true) (h2 : ffmpegDirResolve w.probe ≠ [])
    (h3 : w.ffmpegDirExists = true) (h4 : w.spawnRaises = false)
    (h5 : w.stdoutPresent = true) (h6 : w.stopFinal = true) :
    (runWorker w).outcome = .cancelled ∧
    (appCancel ci).terminateAttempted = (ci.procExists && ci.procRunning) ∧
    (appCancel ci).raisedToCaller = false := by
  have hie : (ffmpegDirResolve w.probe).isEmpty = false := by
    cases hh : ffmpegDirResolve w.probe with
    | nil => exact absurd hh h2
    | cons a as => rfl
  exact ⟨by simp [runWorker, h1, hie, h3, h4, h5, h6], rfl, rfl⟩

/-- Witness for C3: a run whose child exits with code 1 after the flag was
set ends `Cancelled`, and a cancel on a live process attempts
termination without raising. -/
theorem cancel_wins_over_exit_code_witness :
    (runWorker
      { ensureEnvOk := true
      , probe := some "/c".toList
      , ffmpegDirExists := true
      , exeParent := "/t".toList
      , sep := ":".toList
      , ambient := [(pathKey, "/x".toList)]
      , fo1 := .absent
      , fo2 := .absent
      , spawnRaises := false
      , stdoutPresent := true
      , childLines := ["partly".toList]
      , stopDuring := some 0
      , stopFinal := true
      , rc := 1
      , transcript := some [] }).outcome = Outcome.cancelled ∧
    (appCancel
      { procExists := true
      , procRunning := true
      , terminateRaises := true }).terminateAttempted = (true && true) ∧
    (appCancel
      { procExists := true
      , procRunning := true
      , terminateRaises := true }).raisedToCaller = false :=
  cancel_wins_over_exit_code _ _ rfl (by decide) rfl rfl rfl rfl

/-- Claim C6 (confirmed): when the codec probe fails (so `_ffmpeg_dir`
returns the empty string) or the reported directory does not exist, the
worker aborts — the `Popen` spawning the download tool is unreachable. -/
theorem codec_precondition (w : WorkerInput)
    (h : ffmpegDirResolve w.probe = [] ∨ w.ffmpegDirExists = false) :
    (runWorker w).popenCalled = false ∧
    ((runWorker w).outcome = .errored ∨ (runWorker w).outcome = .ffmpegMissing) := by
  by_cases he : w.ensureEnvOk = false
  · simp [runWorker, he]
  · have he' : w.ensureEnvOk = true := by
      cases hh : w.ensureEnvOk
      · exact absurd hh he
      · rfl
    have hcond : ((ffmpegDirResolve w.probe).isEmpty || !w.ffmpegDirExists) = true := by
      rcases h with h | h
      · rw [h]
        rfl
      · rw [h]
        simp
    simp [runWorker, he', hcond]

/-- Witness for C6: with a failing probe the tool is never spawned. -/
theorem codec_precondition_witness :
    (runWorker
      { ensureEnvOk := true
      , probe := none
      , ffmpegDirExists := true
      , exeParent := "/t".toList
      , sep := ":".toList
      , ambient := []
      , fo1 := .absent
      , fo2 := .absent
      , spawnRaises := false
      , stdoutPresent := true
      , childLines := []
      , stopDuring := none
      , stopFinal := false
      , rc := 0
      , transcript := none }).popenCalled = false ∧
    ((runWorker
      { ensureEnvOk := true
      , probe := none
      , ffmpegDirExists := true
      , exeParent := "/t".toList
      , sep := ":".toList
      , ambient := []
      , fo1 := .absent
      , fo2 := .absent
      , spawnRaises := false
      , stdoutPresent := true
      , childLines := []
      , stopDuring := none
      , stopFinal := false
      , rc := 0
      , transcript := none }).outcome = Outcome.errored ∨
     (runWorker
      { ensureEnvOk := true
      , probe := none
      , ffmpegDirExists := true
      , exeParent := "/t".toList
      , sep := ":".toList
      , ambient := []
      , fo1 := .absent
      , fo2 := .absent
      , spawnRaises := false
      , stdoutPresent := true
      , childLines := []
      , stopDuring := none
      , stopFinal := false
      , rc := 0
      , transcript := none }).outcome = Outcome.ffmpegMissing) :=
  codec_precondition _ (Or.inl (by decide))

/-- Claim C8 (confirmed): when the stream closes naturally (the flag never
reads set) and the exit code is non-zero, the run terminates `Failed` and
the surfaced tail is the last 50 lines of the captured transcript — a
suffix of it of length at most 60 (within the claimed ~50–60 bound). -/
theorem failure_tail_bounded (w : WorkerInput)
    (h1 : w.ensureEnvOk = true) (h2 : ffmpegDirResolve w.probe ≠ [])
    (h3 : w.ffmpegDirExists = true) (h4 : w.spawnRaises = false)
    (h5 : w.stdoutPresent = true) (h6 : w.stopDuring = none)
    (h7 : w.stopFinal = false) (h8 : ¬ w.rc = 0) :
    (runWorker w).outcome = .failed (failTail w.transcript) ∧
    (failTail w.transcript).length ≤ 60 ∧ tailWithin w.transcript := by
  have hie : (ffmpegDirResolve w.probe).isEmpty = false := by
    cases hh : ffmpegDirResolve w.probe with
    | nil => exact absurd hh h2
    | cons a as => rfl
  have hpump : (pumpLines w.stopDuring w.childLines 0).2 = false := by
    rw [h6]
    exact pumpLines_no_stop _ _
  refine ⟨by simp [runWorker, h1, hie, h3, h4, h5, hpump, h7, h8], ?_, ?_⟩
  · cases ht : w.transcript with
    | none => simp [failTail]
    | some ls =>
      have : (failTail (some ls)).length = ls.length - (ls.length - 50) := by
        simp [failTail, lastN]
      rw [this]
      omega
  · unfold tailWithin
    cases ht : w.transcript with
    | none => trivial
    | some ls =>
      exact ⟨ls.take (ls.length - 50), List.take_append_drop _ _⟩

/-- Witness for C8: a 60-line transcript and exit code 2 yield `Failed`
with the 50-line tail. -/
theorem failure_tail_bounded_witness :
    (runWorker
      { ensureEnvOk := true
      , probe := some "/c".toList
      , ffmpegDirExists := true
      , exeParent := "/t".toList
      , sep := ":".toList
      , ambient := [(pathKey, "/x".toList)]
      , fo1 := .absent
      , fo2 := .absent
      , spawnRaises := false
      , stdoutPresent := true
      , childLines := ["boom".toList]
      , stopDuring := none
      , stopFinal := false
      , rc := 2
      , transcript := some (List.replicate 60 "x".toList) }).outcome
      = Outcome.failed (failTail (some (List.replicate 60 "x".toList))) ∧
    (failTail (some (List.replicate 60 "x".toList))).length ≤ 60 ∧
    tailWithin (some (List.replicate 60 "x".toList)) :=
  failure_tail_bounded _ rfl (by decide) rfl rfl rfl rfl rfl (by decide)

/-- The concrete input for claim C2's code bug: every guard passes, the
child streams one line, is never cancelled, and exits with code 0. -/
def wDone : WorkerInput :=
  { ensureEnvOk := true
  , probe := some "/c".toList
  , ffmpegDirExists := true
  , exeParent := "/t".toList
  , sep := ":".toList
  , ambient := [(pathKey, "/x".toList)]
  , fo1 := .absent
  , fo2 := .absent
  , spawnRaises := false
  , stdoutPresent := true
  , childLines := ["Downloaded".toList]
  , stopDuring := none
  , stopFinal := false
  , rc := 0
  , transcript := some [] }

/-- Claim C2 (code bug): the successful branch (`rc == 0`) returns without
calling `_done`, so after a successful run the progress bar keeps running,
the Run button stays disabled and the Cancel button stays enabled (status
text `Done`) — the UI is *not* returned to the Idle/ready state, unlike
every other terminal branch, which calls `_done(error=True)`. -/
theorem ui_reset_code_bug :
    (runWorker wDone).outcome = .done ∧
    (runWorker wDone).ui.progressRunning = true ∧
    (runWorker wDone).ui.runEnabled = false ∧
    (runWorker wDone).ui.cancelEnabled = true ∧
    (runWorker wDone).ui ≠ appDone true ∧
    (runWorker wDone).ui ≠ appDone false := by
  decide

end URNSpotDL
